import Mathlib

/-!
Shallow embedding of the smart waste-bin sensor firmware
(`src/sensor_firmware.ino`) and proofs of the specification claims.

Floating-point values in the firmware (`float` distances and voltages) are
modelled as rationals (`ℚ`): all arithmetic the firmware performs on them
(subtraction, multiplication and division by constants) is exact at the
granularity the claims are stated (integer truncation of results), and for
every concrete value appearing in the claims the truncated results of the
IEEE and rational computations coincide.  Machine integers are modelled as
`ℤ`/`ℕ` with explicit `% 2^w` where the firmware narrows a value.
-/

namespace SmartTrashBin

/-- `#define BIN_ID "VAR_012"` -/
def BIN_ID : String := "VAR_012"

/-- `#define BIN_DEPTH_CM 80` -/
def BIN_DEPTH_CM : ℚ := 80

/-- `#define SENSOR_OFFSET_CM 5` -/
def SENSOR_OFFSET_CM : ℚ := 5

/-- `#define NUM_SAMPLES 5` -/
def NUM_SAMPLES : ℕ := 5

/-- `#define MAX_DISTANCE_CM 200` -/
def MAX_DISTANCE_CM : ℚ := 200

/-- C-style cast of a real (`float`) value to `int`: truncation toward zero. -/
def truncQ (q : ℚ) : ℤ :=
  if 0 ≤ q then ⌊q⌋ else ⌈q⌉

/-- `int calculateFillLevel(float distance)` (src/sensor_firmware.ino:131-153),
translated clause by clause: subtract the sensor offset, return `100` when the
adjusted distance is `≤ 0`, return `0` when it is `≥ BIN_DEPTH_CM`, otherwise
truncate the interpolated percentage and clamp it to `[0,100]`. -/
def calculateFillLevel (distance : ℚ) : ℤ :=
  let adjustedDistance := distance - SENSOR_OFFSET_CM
  if adjustedDistance ≤ 0 then
    100
  else if adjustedDistance ≥ BIN_DEPTH_CM then
    0
  else
    let emptySpace := adjustedDistance
    let fillPercentage := ((BIN_DEPTH_CM - emptySpace) / BIN_DEPTH_CM) * 100
    let fillLevel := truncQ fillPercentage
    let fillLevel := if fillLevel < 0 then 0 else fillLevel
    let fillLevel := if fillLevel > 100 then 100 else fillLevel
    fillLevel

/-- The truncated interpolation value computed inside the final branch of
`calculateFillLevel`, before the defensive clamp. -/
def interpFill (distance : ℚ) : ℤ :=
  truncQ ((BIN_DEPTH_CM - (distance - SENSOR_OFFSET_CM)) / BIN_DEPTH_CM * 100)

lemma truncQ_of_nonneg {q : ℚ} (h : 0 ≤ q) : truncQ q = ⌊q⌋ := by
  simp [truncQ, h]

lemma interpFill_nonneg {d : ℚ} (h : d - SENSOR_OFFSET_CM < BIN_DEPTH_CM) :
    0 ≤ interpFill d := by
  have hfp : (0 : ℚ) ≤ (BIN_DEPTH_CM - (d - SENSOR_OFFSET_CM)) / BIN_DEPTH_CM * 100 := by
    have hd : (0 : ℚ) < BIN_DEPTH_CM := by norm_num [BIN_DEPTH_CM]
    have : (0 : ℚ) ≤ BIN_DEPTH_CM - (d - SENSOR_OFFSET_CM) := by linarith
    positivity
  rw [interpFill, truncQ_of_nonneg hfp]
  exact Int.floor_nonneg.mpr hfp

lemma interpFill_lt_100 {d : ℚ} (h : 0 < d - SENSOR_OFFSET_CM) :
    interpFill d < 100 := by
  have hd : (0 : ℚ) < BIN_DEPTH_CM := by norm_num [BIN_DEPTH_CM]
  have hfp : (BIN_DEPTH_CM - (d - SENSOR_OFFSET_CM)) / BIN_DEPTH_CM * 100 < 100 := by
    rw [div_mul_eq_mul_div, div_lt_iff hd]
    nlinarith
  rcases le_or_lt 0 ((BIN_DEPTH_CM - (d - SENSOR_OFFSET_CM)) / BIN_DEPTH_CM * 100) with h0 | h0
  · rw [interpFill, truncQ_of_nonneg h0]
    exact_mod_cast Int.floor_lt.mpr (by exact_mod_cast hfp)
  · have : interpFill d ≤ 0 := by
      rw [interpFill, truncQ, if_neg (not_le.mpr h0)]
      exact Int.ceil_le.mpr (by exact_mod_cast h0.le)
    omega

/-- In the interpolation branch the result is the truncated percentage and the
clamp, being a no-op there, leaves it unchanged. -/
lemma calculateFillLevel_middle {d : ℚ} (h₁ : 0 < d - SENSOR_OFFSET_CM)
    (h₂ : d - SENSOR_OFFSET_CM < BIN_DEPTH_CM) :
    calculateFillLevel d = interpFill d := by
  have h0 := interpFill_nonneg h₂
  have h100 := interpFill_lt_100 h₁
  rw [calculateFillLevel]
  simp only [not_le.mpr h₁, if_neg, not_le.mpr h₂, ge_iff_le]
  rw [if_neg (by simpa using h₁), if_neg (by simpa using not_le.mpr h₂)]
  simp only [interpFill] at h0 h100 ⊢
  rw [if_neg (by omega), if_neg (by omega)]

lemma calculateFillLevel_low {d : ℚ} (h : d - SENSOR_OFFSET_CM ≤ 0) :
    calculateFillLevel d = 100 := by
  rw [calculateFillLevel, if_pos (by simpa using h)]

lemma calculateFillLevel_high {d : ℚ} (h : BIN_DEPTH_CM ≤ d - SENSOR_OFFSET_CM) :
    calculateFillLevel d = 0 := by
  have h0 : ¬ d - SENSOR_OFFSET_CM ≤ 0 := by
    norm_num [BIN_DEPTH_CM] at h ⊢
    norm_num [SENSOR_OFFSET_CM] at h ⊢
    linarith
  rw [calculateFillLevel, if_neg (by simpa using h0), if_pos (by simpa using h)]

lemma calculateFillLevel_range (d : ℚ) :
    0 ≤ calculateFillLevel d ∧ calculateFillLevel d ≤ 100 := by
  rcases le_or_lt (d - SENSOR_OFFSET_CM) 0 with h | h
  · rw [calculateFillLevel_low h]; omega
  rcases le_or_lt BIN_DEPTH_CM (d - SENSOR_OFFSET_CM) with h' | h'
  · rw [calculateFillLevel_high h']; omega
  · rw [calculateFillLevel_middle h h']
    exact ⟨interpFill_nonneg h', (interpFill_lt_100 h).le⟩

/-! ## DistanceSampler: `measureDistance` (src/sensor_firmware.ino:89-125) -/

/-- One execution of the inner `j` loop of the sort in `measureDistance` for a
fixed `i`: the first component is the value left in slot `i` after the pass
(the running minimum), the second the values left in slots `i+1 …`.  When
`readings[i] > readings[j]` the two slots are swapped, so the displaced value
stays at position `j` and the smaller one continues as slot `i`. -/
def innerPass : ℚ → List ℚ → ℚ × List ℚ
  | x, [] => (x, [])
  | x, y :: ys =>
      if x > y then
        ((innerPass y ys).1, x :: (innerPass y ys).2)
      else
        ((innerPass x ys).1, y :: (innerPass x ys).2)

lemma innerPass_snd_length (x : ℚ) (ys : List ℚ) :
    ((innerPass x ys).2).length = ys.length := by
  induction ys generalizing x with
  | nil => simp [innerPass]
  | cons y ys ih => by_cases h : x > y <;> simp [innerPass, h, ih]

lemma innerPass_perm (x : ℚ) (ys : List ℚ) :
    ((innerPass x ys).1 :: (innerPass x ys).2).Perm (x :: ys) := by
  induction ys generalizing x with
  | nil => simp [innerPass]
  | cons y ys ih =>
      by_cases h : x > y
      · simp only [innerPass, if_pos h]
        exact (List.Perm.swap x _ _).trans ((ih y).cons x)
      · simp only [innerPass, if_neg h]
        exact (List.Perm.swap y _ _).trans (((ih x).cons y).trans (List.Perm.swap x y ys))

lemma innerPass_fst_le (x : ℚ) (ys : List ℚ) :
    (innerPass x ys).1 ≤ x ∧ ∀ z ∈ (innerPass x ys).2, (innerPass x ys).1 ≤ z := by
  induction ys generalizing x with
  | nil => simp [innerPass]
  | cons y ys ih =>
      by_cases h : x > y
      · have ihy := ih y
        simp only [innerPass, if_pos h]
        refine ⟨ihy.1.trans h.le, ?_⟩
        intro z hz
        simp only [List.mem_cons] at hz
        rcases hz with rfl | hz
        · exact ihy.1.trans h.le
        · exact ihy.2 z hz
      · have ihx := ih x
        simp only [innerPass, if_neg h]
        refine ⟨ihx.1, ?_⟩
        intro z hz
        simp only [List.mem_cons] at hz
        rcases hz with rfl | hz
        · exact ihx.1.trans (not_lt.mp h)
        · exact ihx.2 z hz

/-- The outer `i` loop of the sort in `measureDistance`: each iteration runs
one `innerPass`, fixes the minimum at position `i` and continues on the rest.
The fuel counts the remaining outer iterations; it is instantiated with the
list length, which `innerPass` preserves, so the recursion mirrors the
`NUM_SAMPLES`-bounded loops exactly. -/
def selSortAux : ℕ → List ℚ → List ℚ
  | 0, l => l
  | _ + 1, [] => []
  | fuel + 1, x :: xs => (innerPass x xs).1 :: selSortAux fuel (innerPass x xs).2

/-- The in-place exchange sort of `measureDistance` (lines 113-121). -/
def selSort (l : List ℚ) : List ℚ := selSortAux l.length l

lemma selSortAux_perm : ∀ (fuel : ℕ) (l : List ℚ), l.length ≤ fuel →
    (selSortAux fuel l).Perm l
  | 0, l, _ => by simp [selSortAux]
  | _ + 1, [], _ => by simp [selSortAux]
  | fuel + 1, x :: xs, h => by
      simp only [selSortAux]
      have hlen : ((innerPass x xs).2).length ≤ fuel := by
        rw [innerPass_snd_length]
        simpa using h
      exact ((selSortAux_perm fuel _ hlen).cons _).trans (innerPass_perm x xs)

lemma selSortAux_sorted : ∀ (fuel : ℕ) (l : List ℚ), l.length ≤ fuel →
    (selSortAux fuel l).Sorted (· ≤ ·)
  | 0, l, h => by
      have : l = [] := List.length_eq_zero.mp (Nat.le_zero.mp h)
      simp [selSortAux, this]
  | _ + 1, [], _ => by simp [selSortAux]
  | fuel + 1, x :: xs, h => by
      simp only [selSortAux]
      have hlen : ((innerPass x xs).2).length ≤ fuel := by
        rw [innerPass_snd_length]
        simpa using h
      rw [List.sorted_cons]
      refine ⟨?_, selSortAux_sorted fuel _ hlen⟩
      intro b hb
      exact (innerPass_fst_le x xs).2 b (((selSortAux_perm fuel _ hlen).mem_iff).mp hb)

lemma selSort_perm (l : List ℚ) : (selSort l).Perm l :=
  selSortAux_perm _ _ le_rfl

lemma selSort_sorted (l : List ℚ) : (selSort l).Sorted (· ≤ ·) :=
  selSortAux_sorted _ _ le_rfl

lemma selSort_eq_insertionSort (l : List ℚ) :
    selSort l = l.insertionSort (· ≤ ·) :=
  List.eq_of_perm_of_sorted
    ((selSort_perm l).trans (List.perm_insertionSort _ l).symm)
    (selSort_sorted l) (List.sorted_insertionSort _ l)

/-- Conversion of one `pulseIn` echo duration (µs, `0` meaning timeout) into
the reading recorded by `measureDistance` (lines 101-107): a timeout records
`MAX_DISTANCE_CM`, otherwise `duration * 0.034 / 2`. -/
def durationToReading (duration : ℤ) : ℚ :=
  if duration = 0 then MAX_DISTANCE_CM
  else (duration : ℚ) * (34 / 1000) / 2

/-- The `readings` array collected by the sampling loop of `measureDistance`,
one entry per echo duration. -/
def readingsOf (durations : List ℤ) : List ℚ :=
  durations.map durationToReading

/-- `float measureDistance()` (lines 89-125) as a function of the echo
durations delivered by `pulseIn`: record a reading per sample, sort the
readings with the nested exchange loops, return `readings[NUM_SAMPLES / 2]`. -/
def measureDistance (durations : List ℤ) : ℚ :=
  (selSort (readingsOf durations)).getD (NUM_SAMPLES / 2) 0

/-- The statistical median of an odd-sized multiset, written from the spec's
words: the middle element of the multiset arranged in sorted order. -/
def statMedian (xs : List ℚ) : ℚ :=
  (xs.insertionSort (· ≤ ·)).getD (xs.length / 2) 0

lemma insertionSort_eq_of_perm {xs ys : List ℚ} (h : xs.Perm ys) :
    xs.insertionSort (· ≤ ·) = ys.insertionSort (· ≤ ·) :=
  List.eq_of_perm_of_sorted
    ((List.perm_insertionSort _ xs).trans (h.trans (List.perm_insertionSort _ ys).symm))
    (List.sorted_insertionSort _ xs) (List.sorted_insertionSort _ ys)

lemma measureDistance_eq_statMedian (durations : List ℤ)
    (h : durations.length = NUM_SAMPLES) :
    measureDistance durations = statMedian (readingsOf durations) := by
  have hlen : (readingsOf durations).length = NUM_SAMPLES := by
    simpa [readingsOf] using h
  rw [measureDistance, statMedian, selSort_eq_insertionSort, hlen]

/-! ## Battery reading and telemetry encoding
(`readBatteryVoltage`, src/sensor_firmware.ino:159-167 and `broadcastData`,
src/sensor_firmware.ino:189-233) -/

/-- `float readBatteryVoltage()` as a function of the raw ADC sample:
`(rawValue / 4095.0) * 3.3 * 2.0`. -/
def readBatteryVoltage (rawValue : ℤ) : ℚ :=
  ((rawValue : ℚ) / 4095) * (33 / 10) * 2

/-- The value `uint16_t voltageMillivolts = (uint16_t)(voltage * 1000)`
computed in `broadcastData` (line 205): truncation toward zero, narrowed to
16 bits. -/
def voltMv (voltage : ℚ) : ℕ :=
  (truncQ (voltage * 1000) % 65536).toNat

/-- The manufacturer-data packet assembled by `broadcastData` (lines 193-214),
as the list of byte values of the `std::string`: up to six identifier
characters, the fill-level byte, the millivolt value split low byte first,
and the uptime seconds (a `uint32_t`) split into four bytes low byte first. -/
def encodePayload (binId : String) (fillLevel : ℤ) (voltage : ℚ)
    (timestamp : ℕ) : List ℕ :=
  let idBytes := (binId.toList.take 6).map Char.toNat
  let voltageMillivolts := voltMv voltage
  let ts := timestamp % 4294967296
  idBytes ++
    [(fillLevel % 256).toNat,
     voltageMillivolts % 256, voltageMillivolts / 256 % 256,
     ts % 256, ts / 256 % 256, ts / 65536 % 256, ts / 16777216 % 256]

/-- Modelled from the spec: the independent test decoder's fill-level field,
byte 6 of the payload (the encoder has no decoder in the source). -/
def decodeFill (p : List ℕ) : ℕ := p.getD 6 0

/-- Modelled from the spec: the independent test decoder's millivolt field,
bytes 7-8 of the payload read as unsigned 16-bit little-endian. -/
def decodeMv (p : List ℕ) : ℕ := p.getD 7 0 + 256 * p.getD 8 0

/-- Modelled from the spec: the independent test decoder's uptime field,
bytes 9-12 of the payload read as unsigned 32-bit little-endian. -/
def decodeUptime (p : List ℕ) : ℕ :=
  p.getD 9 0 + 256 * p.getD 10 0 + 65536 * p.getD 11 0 + 16777216 * p.getD 12 0

/-! ## Radio and power events of one duty cycle -/

/-- The radio and power actions performed by the firmware, in program order:
starting BLE advertising, a blocking `delay`, stopping advertising, and
entering deep sleep. -/
inductive Event where
  | advStart : Event
  | waitMs : ℕ → Event
  | advStop : Event
  | deepSleep : Event
  deriving DecidableEq

/-- The radio events of `broadcastData` (lines 224-232):
`pAdvertising->start()`, `delay(5000)`, `pAdvertising->stop()`. -/
def broadcastTrace : List Event :=
  [Event.advStart, Event.waitMs 5000, Event.advStop]

/-- The radio and power events of one `loop()` cycle (lines 55-83):
`broadcastData(...)` followed by `delay(100)` and `enterDeepSleep()`. -/
def cycleTrace : List Event :=
  broadcastTrace ++ [Event.waitMs 100, Event.deepSleep]

/-- Whether BLE advertising is active after the events of a trace prefix have
run (it is off when `loop()` is entered). -/
def advActive (tr : List Event) : Bool :=
  tr.foldl (fun s e =>
    match e with
    | Event.advStart => true
    | Event.advStop => false
    | _ => s) false

lemma truncQ_mono {p q : ℚ} (h : p ≤ q) : truncQ p ≤ truncQ q := by
  unfold truncQ
  rcases le_or_lt 0 p with hp | hp
  · rw [if_pos hp, if_pos (hp.trans h)]
    exact Int.floor_le_floor h
  · rcases le_or_lt 0 q with hq | hq
    · rw [if_neg (not_le.mpr hp), if_pos hq]
      have h1 : ⌈p⌉ ≤ 0 := Int.ceil_le.mpr (by exact_mod_cast hp.le)
      have h2 : 0 ≤ ⌊q⌋ := Int.floor_nonneg.mpr hq
      omega
    · rw [if_neg (not_le.mpr hp), if_neg (not_le.mpr hq)]
      exact Int.ceil_le_ceil h

/-! ## Claim theorems -/

/-- C1: for every real-valued distance `d`, `calculateFillLevel` returns 100
when `d` minus the sensor offset is ≤ 0, returns 0 when `d` minus the offset
is ≥ the bin depth, and otherwise returns the truncated linear interpolation
`(depth - (d - offset)) / depth * 100`; for every input the result lies in
`[0, 100]`, and at `d = offset + depth/2` the result is 50. -/
theorem C1_calculateFillLevel_spec (d : ℚ) :
    (d - SENSOR_OFFSET_CM ≤ 0 → calculateFillLevel d = 100) ∧
    (BIN_DEPTH_CM ≤ d - SENSOR_OFFSET_CM → calculateFillLevel d = 0) ∧
    (0 < d - SENSOR_OFFSET_CM → d - SENSOR_OFFSET_CM < BIN_DEPTH_CM →
      calculateFillLevel d =
        truncQ ((BIN_DEPTH_CM - (d - SENSOR_OFFSET_CM)) / BIN_DEPTH_CM * 100)) ∧
    (0 ≤ calculateFillLevel d ∧ calculateFillLevel d ≤ 100) ∧
    calculateFillLevel (SENSOR_OFFSET_CM + BIN_DEPTH_CM / 2) = 50 := by
  refine ⟨calculateFillLevel_low, calculateFillLevel_high,
    fun h₁ h₂ => calculateFillLevel_middle h₁ h₂, calculateFillLevel_range d, ?_⟩
  have h₁ : (0 : ℚ) < SENSOR_OFFSET_CM + BIN_DEPTH_CM / 2 - SENSOR_OFFSET_CM := by
    norm_num [SENSOR_OFFSET_CM, BIN_DEPTH_CM]
  have h₂ : SENSOR_OFFSET_CM + BIN_DEPTH_CM / 2 - SENSOR_OFFSET_CM < BIN_DEPTH_CM := by
    norm_num [SENSOR_OFFSET_CM, BIN_DEPTH_CM]
  rw [calculateFillLevel_middle h₁ h₂]
  norm_num [interpFill, truncQ, SENSOR_OFFSET_CM, BIN_DEPTH_CM]

/-- Witness for C1 at the spec's concrete scenarios: distance 3 (overflow),
distance 90 (empty), distance 41 (interpolation). -/
theorem C1_calculateFillLevel_spec_witness :
    calculateFillLevel 3 = 100 ∧ calculateFillLevel 90 = 0 ∧
    calculateFillLevel 41 =
      truncQ ((BIN_DEPTH_CM - (41 - SENSOR_OFFSET_CM)) / BIN_DEPTH_CM * 100) :=
  ⟨(C1_calculateFillLevel_spec 3).1 (by norm_num [SENSOR_OFFSET_CM]),
   (C1_calculateFillLevel_spec 90).2.1 (by norm_num [SENSOR_OFFSET_CM, BIN_DEPTH_CM]),
   (C1_calculateFillLevel_spec 41).2.2.1 (by norm_num [SENSOR_OFFSET_CM])
     (by norm_num [SENSOR_OFFSET_CM, BIN_DEPTH_CM])⟩

/-- C9: for every distance in the interpolation branch
(`0 < d - offset < depth`), the truncated interpolated percentage already lies
in `[0, 100]`, so neither clamp branch (`fillLevel < 0`, `fillLevel > 100`)
changes the value, and `calculateFillLevel` returns it unchanged. -/
theorem C9_interp_clamp_noop (d : ℚ) (h₁ : 0 < d - SENSOR_OFFSET_CM)
    (h₂ : d - SENSOR_OFFSET_CM < BIN_DEPTH_CM) :
    0 ≤ interpFill d ∧ interpFill d ≤ 100 ∧
    (if interpFill d < 0 then 0 else interpFill d) = interpFill d ∧
    (if interpFill d > 100 then 100 else interpFill d) = interpFill d ∧
    calculateFillLevel d = interpFill d := by
  have h0 := interpFill_nonneg h₂
  have h100 := interpFill_lt_100 h₁
  exact ⟨h0, h100.le, by omega, by omega, calculateFillLevel_middle h₁ h₂⟩

/-- Witness for C9 at distance 41. -/
theorem C9_interp_clamp_noop_witness :
    0 ≤ interpFill 41 ∧ interpFill 41 ≤ 100 ∧
    (if interpFill 41 < 0 then 0 else interpFill 41) = interpFill 41 ∧
    (if interpFill 41 > 100 then 100 else interpFill 41) = interpFill 41 ∧
    calculateFillLevel 41 = interpFill 41 :=
  C9_interp_clamp_noop 41 (by norm_num [SENSOR_OFFSET_CM])
    (by norm_num [SENSOR_OFFSET_CM, BIN_DEPTH_CM])

/-- C10: `calculateFillLevel` is monotonically non-increasing in the measured
distance: `d₁ ≤ d₂` implies `calculateFillLevel d₁ ≥ calculateFillLevel d₂`. -/
theorem C10_calculateFillLevel_antitone (d₁ d₂ : ℚ) (h : d₁ ≤ d₂) :
    calculateFillLevel d₂ ≤ calculateFillLevel d₁ := by
  rcases le_or_lt (d₁ - SENSOR_OFFSET_CM) 0 with h₁ | h₁
  · rw [calculateFillLevel_low h₁]
    exact (calculateFillLevel_range d₂).2
  rcases le_or_lt BIN_DEPTH_CM (d₂ - SENSOR_OFFSET_CM) with h₂ | h₂
  · rw [calculateFillLevel_high h₂]
    exact (calculateFillLevel_range d₁).1
  have h₁' : d₁ - SENSOR_OFFSET_CM < BIN_DEPTH_CM := by linarith
  have h₂' : 0 < d₂ - SENSOR_OFFSET_CM := by linarith
  rw [calculateFillLevel_middle h₁ h₁', calculateFillLevel_middle h₂' h₂]
  apply truncQ_mono
  have hD : (0 : ℚ) < BIN_DEPTH_CM := by norm_num [BIN_DEPTH_CM]
  rw [div_mul_eq_mul_div, div_mul_eq_mul_div, div_le_div_iff hD hD]
  nlinarith

/-- Witness for C10 at the pair `10 ≤ 50`. -/
theorem C10_calculateFillLevel_antitone_witness :
    calculateFillLevel 50 ≤ calculateFillLevel 10 :=
  C10_calculateFillLevel_antitone 10 50 (by norm_num)

lemma selSort_getD_of_all_eq {xs : List ℚ} {c : ℚ} (h : ∀ r ∈ xs, r = c)
    (hl : NUM_SAMPLES / 2 < xs.length) :
    (selSort xs).getD (NUM_SAMPLES / 2) 0 = c := by
  have hlen : (selSort xs).length = xs.length := (selSort_perm xs).length_eq
  rw [List.getD_eq_getElem _ _ (by omega)]
  exact h _ ((selSort_perm xs).mem_iff.mp (List.getElem_mem _))

/-- C2: for every sequence of `NUM_SAMPLES` collected raw readings,
`measureDistance` returns the statistical median of that multiset (the middle
element of the sorted arrangement), independently of collection order; in
particular if all readings are the sentinel `MAX_DISTANCE_CM` the returned
estimate is the sentinel. -/
theorem C2_measureDistance_median (durations : List ℤ)
    (h : durations.length = NUM_SAMPLES) :
    measureDistance durations = statMedian (readingsOf durations) ∧
    (∀ durations₂ : List ℤ,
      (readingsOf durations).Perm (readingsOf durations₂) →
      measureDistance durations = measureDistance durations₂) ∧
    ((∀ r ∈ readingsOf durations, r = MAX_DISTANCE_CM) →
      measureDistance durations = MAX_DISTANCE_CM) := by
  refine ⟨measureDistance_eq_statMedian durations h, ?_, ?_⟩
  · intro durations₂ hperm
    rw [measureDistance, measureDistance, selSort_eq_insertionSort,
      selSort_eq_insertionSort, insertionSort_eq_of_perm hperm]
  · intro hall
    rw [measureDistance]
    apply selSort_getD_of_all_eq hall
    have hlen : (readingsOf durations).length = NUM_SAMPLES := by
      simpa [readingsOf] using h
    rw [hlen]
    norm_num [NUM_SAMPLES]

/-- Witness for C2: five timed-out samples, all readings the sentinel. -/
theorem C2_measureDistance_median_witness :
    measureDistance [0, 0, 0, 0, 0] = statMedian (readingsOf [0, 0, 0, 0, 0]) ∧
    measureDistance [0, 0, 0, 0, 0] = MAX_DISTANCE_CM :=
  ⟨(C2_measureDistance_median [0, 0, 0, 0, 0] (by norm_num [NUM_SAMPLES])).1,
   (C2_measureDistance_median [0, 0, 0, 0, 0] (by norm_num [NUM_SAMPLES])).2.2
     (by norm_num [readingsOf, durationToReading])⟩

/-- C5 (evidence of the code bug): with all five echo durations at the
30000 µs timeout bound — each inside the claimed `[0, 30000]` window — every
reading converts to `30000 * 0.034 / 2 = 510` cm because only timed-out
samples are clamped to `MAX_DISTANCE_CM`, and the returned median is 510 cm,
outside `[0, MAX_DISTANCE_CM]`. -/
theorem C5_median_exceeds_max :
    measureDistance [30000, 30000, 30000, 30000, 30000] = 510 ∧
    MAX_DISTANCE_CM < 510 := by
  constructor
  · norm_num [measureDistance, readingsOf, durationToReading, selSort,
      selSortAux, innerPass, NUM_SAMPLES, List.getD, MAX_DISTANCE_CM]
  · norm_num [MAX_DISTANCE_CM]

/-- C7: whenever an individual echo measurement times out (`pulseIn` returns
duration 0), the reading recorded for that sample is the sentinel
`MAX_DISTANCE_CM`; no error path exists and the cycle still computes the
median of all recorded readings. -/
theorem C7_timeout_sentinel (durations : List ℤ) (i : ℕ)
    (h : durations[i]? = some 0) :
    (readingsOf durations)[i]? = some MAX_DISTANCE_CM ∧
    measureDistance durations =
      (selSort (readingsOf durations)).getD (NUM_SAMPLES / 2) 0 := by
  constructor
  · simp [readingsOf, List.getElem?_map, h, durationToReading]
  · rfl

/-- Witness for C7: the fourth sample of a round times out. -/
theorem C7_timeout_sentinel_witness :
    (readingsOf [2353, 2471, 2412, 0, 2412])[3]? = some MAX_DISTANCE_CM ∧
    measureDistance [2353, 2471, 2412, 0, 2412] =
      (selSort (readingsOf [2353, 2471, 2412, 0, 2412])).getD
        (NUM_SAMPLES / 2) 0 :=
  C7_timeout_sentinel [2353, 2471, 2412, 0, 2412] 3 rfl

lemma idBytes_length {binId : String} (hid : 6 ≤ binId.toList.length) :
    ((binId.toList.take 6).map Char.toNat).length = 6 := by
  simp only [List.length_map, List.length_take]
  omega

lemma decodeFill_encode (binId : String) (fillLevel : ℤ) (voltage : ℚ)
    (timestamp : ℕ) (hid : 6 ≤ binId.toList.length) :
    decodeFill (encodePayload binId fillLevel voltage timestamp) =
      (fillLevel % 256).toNat := by
  have hlen := idBytes_length hid
  simp only [decodeFill, encodePayload]
  rw [List.getD_append_right _ _ _ _ (by simp [hlen]), hlen]
  rfl

lemma decodeMv_encode (binId : String) (fillLevel : ℤ) (voltage : ℚ)
    (timestamp : ℕ) (hid : 6 ≤ binId.toList.length) :
    decodeMv (encodePayload binId fillLevel voltage timestamp) =
      voltMv voltage % 256 + 256 * (voltMv voltage / 256 % 256) := by
  have hlen := idBytes_length hid
  simp only [decodeMv, encodePayload]
  rw [List.getD_append_right _ _ _ _ (by rw [hlen]; norm_num),
    List.getD_append_right _ _ _ _ (by rw [hlen]; norm_num), hlen]
  rfl

lemma decodeUptime_encode (binId : String) (fillLevel : ℤ) (voltage : ℚ)
    (timestamp : ℕ) (hid : 6 ≤ binId.toList.length) :
    decodeUptime (encodePayload binId fillLevel voltage timestamp) =
      timestamp % 4294967296 % 256 +
        256 * (timestamp % 4294967296 / 256 % 256) +
        65536 * (timestamp % 4294967296 / 65536 % 256) +
        16777216 * (timestamp % 4294967296 / 16777216 % 256) := by
  have hlen := idBytes_length hid
  simp only [decodeUptime, encodePayload]
  rw [List.getD_append_right _ _ _ _ (by rw [hlen]; norm_num),
    List.getD_append_right _ _ _ _ (by rw [hlen]; norm_num),
    List.getD_append_right _ _ _ _ (by rw [hlen]; norm_num),
    List.getD_append_right _ _ _ _ (by rw [hlen]; norm_num), hlen]
  rfl

/-- C3 counterexample: with a two-character configured identifier the packet
has 9 bytes, not 13 — the identifier loop copies only `min(6, length)`
characters and nothing pads the field to 6 bytes. -/
theorem C3_short_id_payload_not_13 :
    (encodePayload "AB" 55 (33 / 10) 42).length = 9 ∧
    ¬ (encodePayload "AB" 55 (33 / 10) 42).length = 13 := by
  have h : (encodePayload "AB" 55 (33 / 10) 42).length = 9 := by
    norm_num [encodePayload]
  exact ⟨h, by omega⟩

/-- C3 (amended): for every configured identifier of at least six characters,
every fill level in `[0, 100]`, every voltage, and every 32-bit uptime value,
the payload is exactly 13 bytes with the fixed positional layout: bytes 0-5
the first six identifier characters, byte 6 the fill level, bytes 7-8 the
16-bit millivolt value (voltage × 1000 truncated, narrowed to 16 bits) in
little-endian order, bytes 9-12 the uptime seconds in little-endian order. -/
theorem C3_payload_layout (binId : String) (fillLevel : ℤ) (voltage : ℚ)
    (timestamp : ℕ) (hid : 6 ≤ binId.toList.length)
    (hf0 : 0 ≤ fillLevel) (hf1 : fillLevel ≤ 100)
    (hts : timestamp < 4294967296) :
    (encodePayload binId fillLevel voltage timestamp).length = 13 ∧
    encodePayload binId fillLevel voltage timestamp =
      (binId.toList.take 6).map Char.toNat ++
        [fillLevel.toNat,
         voltMv voltage % 256, voltMv voltage / 256 % 256,
         timestamp % 256, timestamp / 256 % 256,
         timestamp / 65536 % 256, timestamp / 16777216 % 256] := by
  have hts' : timestamp % 4294967296 = timestamp := Nat.mod_eq_of_lt hts
  have hfill : (fillLevel % 256).toNat = fillLevel.toNat := by omega
  constructor
  · simp only [encodePayload, List.length_append, List.length_map,
      List.length_take, List.length_cons, List.length_nil]
    omega
  · simp only [encodePayload, hts', hfill]

/-- Witness for C3 at the configured identifier and concrete field values. -/
theorem C3_payload_layout_witness :
    (encodePayload BIN_ID 55 (33 / 10) 42).length = 13 ∧
    encodePayload BIN_ID 55 (33 / 10) 42 =
      (BIN_ID.toList.take 6).map Char.toNat ++
        [(55 : ℤ).toNat,
         voltMv (33 / 10) % 256, voltMv (33 / 10) / 256 % 256,
         42 % 256, 42 / 256 % 256, 42 / 65536 % 256, 42 / 16777216 % 256] :=
  C3_payload_layout BIN_ID 55 (33 / 10) 42 (by norm_num [BIN_ID])
    (by norm_num) (by norm_num) (by norm_num)

/-- C4 counterexample: at 100 V the 16-bit millivolt field wraps — the
decoded value is 100000 mod 2¹⁶ = 34464, not within 1 mV of the true
truncated millivolt value 100000 — so the round trip does not hold for every
voltage. -/
theorem C4_large_voltage_wraps :
    decodeMv (encodePayload BIN_ID 55 100 42) = 34464 ∧
    truncQ ((100 : ℚ) * 1000) = 100000 ∧
    ¬ ((34464 : ℤ) - 100000 ≤ 1 ∧ (100000 : ℤ) - 34464 ≤ 1) := by
  have ht : truncQ ((100 : ℚ) * 1000) = 100000 := by
    norm_num [truncQ]
  have hmv : voltMv 100 = 34464 := by
    rw [voltMv, ht]
    norm_num
    decide
  refine ⟨?_, ht, by omega⟩
  rw [decodeMv_encode BIN_ID 55 100 42 (by norm_num [BIN_ID]), hmv]

/-- C4 (amended): for every identifier of at least six characters, fill level
in `[0, 100]`, nonnegative voltage whose millivolt value fits in 16 bits
(voltage × 1000 < 65536), and 32-bit uptime value, decoding the payload by
the inverse byte layout recovers the exact fill level, the millivolt value
voltage × 1000 truncated — which is within 1 mV of the true millivolt value —
and the exact uptime-seconds value. -/
theorem C4_encode_decode_roundtrip (binId : String) (fillLevel : ℤ)
    (voltage : ℚ) (timestamp : ℕ) (hid : 6 ≤ binId.toList.length)
    (hf0 : 0 ≤ fillLevel) (hf1 : fillLevel ≤ 100)
    (hv0 : 0 ≤ voltage) (hv1 : voltage * 1000 < 65536)
    (hts : timestamp < 4294967296) :
    (decodeFill (encodePayload binId fillLevel voltage timestamp) : ℤ) =
      fillLevel ∧
    (decodeMv (encodePayload binId fillLevel voltage timestamp) : ℤ) =
      truncQ (voltage * 1000) ∧
    voltage * 1000 - 1 <
      (decodeMv (encodePayload binId fillLevel voltage timestamp) : ℚ) ∧
    (decodeMv (encodePayload binId fillLevel voltage timestamp) : ℚ) ≤
      voltage * 1000 ∧
    decodeUptime (encodePayload binId fillLevel voltage timestamp) =
      timestamp := by
  have hq0 : (0 : ℚ) ≤ voltage * 1000 := by positivity
  have hfl : truncQ (voltage * 1000) = ⌊voltage * 1000⌋ := truncQ_of_nonneg hq0
  have ht0 : 0 ≤ truncQ (voltage * 1000) := by
    rw [hfl]
    exact Int.floor_nonneg.mpr hq0
  have ht1 : truncQ (voltage * 1000) < 65536 := by
    rw [hfl]
    exact Int.floor_lt.mpr (by exact_mod_cast hv1)
  have hmv : voltMv voltage = (truncQ (voltage * 1000)).toNat := by
    rw [voltMv, Int.emod_eq_of_lt ht0 (by omega)]
  have hmvlt : voltMv voltage < 65536 := by omega
  have hdmv : decodeMv (encodePayload binId fillLevel voltage timestamp) =
      voltMv voltage := by
    rw [decodeMv_encode binId fillLevel voltage timestamp hid]
    omega
  refine ⟨?_, ?_, ?_, ?_, ?_⟩
  · rw [decodeFill_encode binId fillLevel voltage timestamp hid]
    omega
  · rw [hdmv, hmv]
    omega
  · rw [hdmv, hmv]
    have h1 : ((truncQ (voltage * 1000)).toNat : ℤ) = truncQ (voltage * 1000) :=
      Int.toNat_of_nonneg ht0
    have h2 : ((truncQ (voltage * 1000)).toNat : ℚ) = ((truncQ (voltage * 1000) : ℤ) : ℚ) := by
      exact_mod_cast h1
    rw [h2, hfl]
    exact Int.sub_one_lt_floor _
  · rw [hdmv, hmv]
    have h1 : ((truncQ (voltage * 1000)).toNat : ℤ) = truncQ (voltage * 1000) :=
      Int.toNat_of_nonneg ht0
    have h2 : ((truncQ (voltage * 1000)).toNat : ℚ) = ((truncQ (voltage * 1000) : ℤ) : ℚ) := by
      exact_mod_cast h1
    rw [h2, hfl]
    exact Int.floor_le _
  · rw [decodeUptime_encode binId fillLevel voltage timestamp hid]
    omega

/-- Witness for C4: identifier `BIN_ID`, fill 55, voltage 3.3 V, uptime 42 s. -/
theorem C4_encode_decode_roundtrip_witness :
    (decodeFill (encodePayload BIN_ID 55 (33 / 10) 42) : ℤ) = 55 ∧
    (decodeMv (encodePayload BIN_ID 55 (33 / 10) 42) : ℤ) =
      truncQ ((33 / 10 : ℚ) * 1000) ∧
    (33 / 10 : ℚ) * 1000 - 1 <
      (decodeMv (encodePayload BIN_ID 55 (33 / 10) 42) : ℚ) ∧
    (decodeMv (encodePayload BIN_ID 55 (33 / 10) 42) : ℚ) ≤
      (33 / 10 : ℚ) * 1000 ∧
    decodeUptime (encodePayload BIN_ID 55 (33 / 10) 42) = 42 :=
  C4_encode_decode_roundtrip BIN_ID 55 (33 / 10) 42 (by norm_num [BIN_ID])
    (by norm_num) (by norm_num) (by norm_num) (by norm_num) (by norm_num)

/-- C6 counterexample: at raw ADC 2048 the computed voltage is
`(2048/4095) × 3.3 × 2.0 = 3.30080…` V, whose encoded millivolt value is
3300, not 3297, and the decoded payload carries 3300 mV. -/
theorem C6_adc2048_not_3297 :
    voltMv (readBatteryVoltage 2048) = 3300 ∧
    ¬ voltMv (readBatteryVoltage 2048) = 3297 ∧
    ¬ decodeMv (encodePayload BIN_ID 55 (readBatteryVoltage 2048) 42) = 3297 := by
  have h : voltMv (readBatteryVoltage 2048) = 3300 := by
    norm_num [voltMv, readBatteryVoltage, truncQ]
    decide
  have hd : decodeMv (encodePayload BIN_ID 55 (readBatteryVoltage 2048) 42) =
      3300 := by
    rw [decodeMv_encode BIN_ID 55 (readBatteryVoltage 2048) 42
      (by norm_num [BIN_ID]), h]
  exact ⟨h, by omega, by omega⟩

/-- C6 (amended): at raw ADC 2048, `readBatteryVoltage` returns
`(2048/4095) × 3.3 × 2.0 = 22528/6825 ≈ 3.3008` V, the encoder stores 3300 as
the 16-bit millivolt field, and decoding the payload yields exactly 3300 mV. -/
theorem C6_adc2048_roundtrip :
    readBatteryVoltage 2048 = 22528 / 6825 ∧
    voltMv (readBatteryVoltage 2048) = 3300 ∧
    decodeMv (encodePayload BIN_ID 55 (readBatteryVoltage 2048) 42) = 3300 := by
  have h : voltMv (readBatteryVoltage 2048) = 3300 := by
    norm_num [voltMv, readBatteryVoltage, truncQ]
    decide
  refine ⟨by norm_num [readBatteryVoltage], h, ?_⟩
  rw [decodeMv_encode BIN_ID 55 (readBatteryVoltage 2048) 42
    (by norm_num [BIN_ID]), h]

/-- C8: in every broadcast cycle, advertising starts, is held for the fixed
5000 ms advertise duration, and is explicitly stopped before the deep-sleep
event; at every point of the cycle trace where deep sleep is entered,
advertising is no longer active. -/
theorem C8_advertise_stopped_before_sleep :
    cycleTrace[0]? = some Event.advStart ∧
    cycleTrace[1]? = some (Event.waitMs 5000) ∧
    cycleTrace[2]? = some Event.advStop ∧
    cycleTrace[4]? = some Event.deepSleep ∧
    (∀ k : ℕ, cycleTrace[k]? = some Event.deepSleep →
      advActive (cycleTrace.take k) = false) := by
  refine ⟨rfl, rfl, rfl, rfl, ?_⟩
  intro k hk
  rcases k with _ | _ | _ | _ | _ | n
  · simp [cycleTrace, broadcastTrace] at hk
  · simp [cycleTrace, broadcastTrace] at hk
  · simp [cycleTrace, broadcastTrace] at hk
  · simp [cycleTrace, broadcastTrace] at hk
  · rfl
  · rw [List.getElem?_eq_none (by simp [cycleTrace, broadcastTrace])] at hk
    exact Option.noConfusion hk

/-- Witness for C8 at the deep-sleep position of the cycle trace. -/
theorem C8_advertise_stopped_before_sleep_witness :
    advActive (cycleTrace.take 4) = false :=
  C8_advertise_stopped_before_sleep.2.2.2.2 4 rfl

end SmartTrashBin
